import Mathlib

/-!
Verification of the `outlook-mcp` repository (zendesk-mcp-example) against its
natural-language specification.

The only source file under version control is
`src/zendesk_mcp_server/__init__.py`; it imports `asyncio` and the `server`
submodule, defines `def main(): asyncio.run(server.main())`, and exports
`main` and `server`.

The entry point is embedded directly from that source.  The server core
(Dispatcher, Tool Registry, Ticketing Client, Session/Lifecycle Manager) is not
present in the repository's files, so those components are modelled from the
specification's words, as marked on each definition.
-/

namespace ZendeskMcp

/-- A minimal Python value domain, enough to express the entry point's
return value (`None`, since `main` has no `return` statement) and tool
payloads. -/
inductive PyValue where
  | none
  | str (s : String)
  | int (n : Int)
  | bool (b : Bool)
deriving DecidableEq, Repr

/-- The coroutines the entry point can hand to `asyncio.run`.  The visible
source mentions exactly one: `server.main()`. -/
inductive Coroutine where
  | serverMain
deriving DecidableEq, Repr

/-- Observable effects performed by the entry point.  `asyncio.run c` starts a
cooperative event loop and drives coroutine `c` to completion. -/
inductive Effect where
  | asyncioRun (c : Coroutine)
deriving DecidableEq, Repr

/-- A Python exception: type name and message. -/
structure PyExc where
  typeName : String
  message : String
deriving DecidableEq, Repr

/-- Embedding of `def main(): asyncio.run(server.main())`.

The input is the outcome of the `server.main()` coroutine (a normal value or
an uncaught exception).  The output is the list of effects `main` performs
together with `main`'s own outcome.  The body is a single expression
statement, so:
  - exactly one effect is performed, `asyncio.run(server.main())`;
  - the value returned by `asyncio.run` is discarded and `main` returns
    `None` (no `return` statement);
  - there is no `try`/`except`, so an exception raised out of the coroutine
    propagates unchanged out of `main`. -/
def mainExec (outcome : Except PyExc PyValue) : List Effect × Except PyExc PyValue :=
  ([Effect.asyncioRun Coroutine.serverMain],
    match outcome with
    | .ok _ => .ok PyValue.none
    | .error e => .error e)

end ZendeskMcp

namespace ZendeskMcp

/-! ## The server core, modelled from the specification

The `server` module itself is not among the repository's files; everything
below is built from the specification's description of the Request Dispatcher,
Tool Registry and Ticketing Client. -/

/-- Modelled from the spec (server module missing from src/): the value domain
for tool arguments and payloads, a tagged variant as §9 prescribes for the
schema interpreter. -/
inductive Value where
  | str (s : String)
  | int (n : Int)
  | bool (b : Bool)
deriving DecidableEq, Repr

/-- Modelled from the spec: the type tags of the schema description
(field name maps to a type and a required flag). -/
inductive FieldType where
  | tString
  | tInt
  | tBool
deriving DecidableEq, Repr

/-- The type tag of a concrete value. -/
def typeOf : Value → FieldType
  | .str _ => .tString
  | .int _ => .tInt
  | .bool _ => .tBool

/-- Modelled from the spec: one entry of a tool's input schema,
"field name → (type, required)". -/
structure FieldSpec where
  name : String
  type : FieldType
  required : Bool
deriving DecidableEq, Repr

/-- Request arguments: a mapping from string keys to values. -/
abbrev Args := List (String × Value)

/-- Look an argument up by field name. -/
def lookupArg (args : Args) (n : String) : Option Value :=
  (args.find? (fun p => p.1 == n)).map (fun p => p.2)

/-- Modelled from the spec: schema validation failures, detailing which
field failed. -/
inductive SchemaError where
  | missingField (f : String)
  | wrongType (f : String)
deriving DecidableEq, Repr

/-- A human-readable message for a schema error. -/
def schemaErrorMessage : SchemaError → String
  | .missingField f => "missing required field " ++ f
  | .wrongType f => "wrong type for field " ++ f

/-- Check a single schema field against the arguments. -/
def checkField (args : Args) (fs : FieldSpec) : Option SchemaError :=
  match lookupArg args fs.name with
  | none => if fs.required then some (.missingField fs.name) else none
  | some v => if typeOf v == fs.type then none else some (.wrongType fs.name)

/-- First schema error over a list of field specs, if any. -/
def findSchemaError (schema : List FieldSpec) (args : Args) : Option SchemaError :=
  match schema with
  | [] => none
  | fs :: rest =>
    match checkField args fs with
    | some e => some e
    | none => findSchemaError rest args

/-- Modelled from the spec: `validate(descriptor, arguments) → arguments |
SchemaError`, structural type/required-field checking performed before the
handler ever executes. -/
def validate (schema : List FieldSpec) (args : Args) : Except SchemaError Args :=
  match findSchemaError schema args with
  | some e => .error e
  | none => .ok args

/-- Modelled from the spec: the operations of the Ticketing Client (§4.4);
an external side effect is exactly one of these calls. -/
inductive ClientCall where
  | getTicket (id : Int)
  | listTickets (filter : String) (cursor : String)
  | addComment (ticketId : Int) (text : String) (pub : Bool)
  | updateTicket (id : Int) (fields : Args)
deriving DecidableEq, Repr

/-- Modelled from the spec: a tool handler consumes validated arguments and
produces the list of Ticketing Client calls it performed together with either
a success payload or a raised failure (its message). -/
def Handler := Args → List ClientCall × Except String Value

/-- Modelled from the spec: a Tool Descriptor,
`(name, input schema, output schema, handler reference)`. -/
structure ToolDescriptor where
  name : String
  inputSchema : List FieldSpec
  outputSchema : List FieldSpec
  handler : Handler

/-- The Tool Registry: a mapping from tool name to descriptor. -/
abbrev Registry := List ToolDescriptor

/-- Modelled from the spec: `lookup(name) → descriptor | NotFound`. -/
def lookup (reg : Registry) (n : String) : Option ToolDescriptor :=
  List.find? (fun d => d.name == n) reg

/-- Failure of a registry registration. -/
inductive RegError where
  | duplicateName
deriving DecidableEq, Repr

/-- Modelled from the spec: `register(descriptor)` at startup, which fails if
the name is already present. -/
def registerTool (reg : Registry) (d : ToolDescriptor) : Except RegError Registry :=
  match lookup reg d.name with
  | some _ => .error .duplicateName
  | none => .ok (reg ++ [d])

/-- Modelled from the spec: an inbound Request,
`(id: correlation token, tool_name, arguments)`. -/
structure Request where
  id : String
  tool_name : String
  arguments : Args
deriving DecidableEq, Repr

/-- Modelled from the spec: the error taxonomy of §7. -/
inductive ErrorKind where
  | protocolDecodeError
  | toolNotFound
  | invalidArguments
  | upstreamTransient
  | upstreamRejected
  | handlerFault
deriving DecidableEq, Repr

/-- Modelled from the spec: a Response's result, a success payload or an error
descriptor carrying the error kind and a message. -/
inductive ResponseResult where
  | success (payload : Value)
  | error (kind : ErrorKind) (message : String)
deriving DecidableEq, Repr

/-- Modelled from the spec: a Response,
`(id: correlation token matching the originating Request, result)`. -/
structure Response where
  id : String
  result : ResponseResult
deriving DecidableEq, Repr

/-- Modelled from the spec: `dispatch(Request) → Response` (§4.3), also
returning the list of Ticketing Client calls performed, so that absence of
external side effects is expressible.  Algorithm: resolve the tool via
`lookup`; on NotFound return a `toolNotFound` error echoing the request id;
on found, validate arguments, returning `invalidArguments` on a schema error
without running the handler; on valid input invoke the handler, converting a
raised failure into a `handlerFault` error Response and a normal completion
into a success Response. -/
def dispatch (reg : Registry) (req : Request) : Response × List ClientCall :=
  match lookup reg req.tool_name with
  | none => (⟨req.id, .error .toolNotFound "tool not found"⟩, [])
  | some d =>
    match validate d.inputSchema req.arguments with
    | .error e => (⟨req.id, .error .invalidArguments (schemaErrorMessage e)⟩, [])
    | .ok args =>
      let out := d.handler args
      match out.2 with
      | .ok v => (⟨req.id, .success v⟩, out.1)
      | .error msg => (⟨req.id, .error .handlerFault msg⟩, out.1)

/-- The registry returned alongside a lookup: lookup is read-only. -/
def lookupS (reg : Registry) (n : String) : Option ToolDescriptor × Registry :=
  (lookup reg n, reg)

/-- The registry returned alongside a validation: validate is read-only. -/
def validateS (reg : Registry) (schema : List FieldSpec) (args : Args) :
    Except SchemaError Args × Registry :=
  (validate schema args, reg)

/-- The registry returned alongside a dispatch: dispatch is read-only. -/
def dispatchS (reg : Registry) (req : Request) :
    (Response × List ClientCall) × Registry :=
  (dispatch reg req, reg)

/-! ### Concrete fixtures used by witnesses and counterexamples -/

/-- A tool whose handler performs one Ticketing Client call and succeeds. -/
def wDesc : ToolDescriptor :=
  ⟨"get_ticket", [⟨"id", .tInt, true⟩], [],
    fun _ => ([ClientCall.getTicket 42], Except.ok (Value.str "ticket"))⟩

/-- A registry holding only `wDesc`. -/
def wReg : Registry := [wDesc]

/-- A well-formed request for `wDesc`. -/
def wReq : Request := ⟨"1", "get_ticket", [("id", Value.int 42)]⟩

/-- A second well-formed request for `wDesc`, for batch dispatch. -/
def wReq2 : Request := ⟨"2", "get_ticket", [("id", Value.int 7)]⟩

/-- A tool whose handler always raises. -/
def boomDesc : ToolDescriptor :=
  ⟨"boom", [], [], fun _ => ([], Except.error "boom")⟩

/-- A registry holding only `boomDesc`. -/
def boomReg : Registry := [boomDesc]

/-- A well-formed request for `boomDesc` (registered tool, empty schema, so
the empty arguments are schema-conformant). -/
def boomReq : Request := ⟨"7", "boom", []⟩

/-! ### The Ticketing Client retry policy, modelled from the specification -/

/-- Modelled from the spec: how a single external attempt can fail — a
timeout, or an HTTP status, which for a rate-limit response may carry a
retry-after signal. -/
inductive HttpFailure where
  | timeout
  | status (code : Nat) (retryAfter : Option Nat)
deriving DecidableEq, Repr

/-- Modelled from the spec: a failure is transient (retryable) exactly when
it is a timeout, a 5xx status, or a rate-limit (429) response carrying a
retry-after signal; every other failure (4xx other than rate-limit) is
non-transient. -/
def isTransient : HttpFailure → Bool
  | .timeout => true
  | .status code retryAfter => 500 ≤ code || (code == 429 && retryAfter.isSome)

/-- A short description of a failure for the normalized error message. -/
def describeFailure : HttpFailure → String
  | .timeout => "timeout"
  | .status code _ => "http status " ++ toString code

/-- The outcome of one external attempt. -/
inductive AttemptResult where
  | ok (v : Value)
  | fail (f : HttpFailure)
deriving DecidableEq, Repr

/-- Modelled from the spec: the Ticketing Client's normalized result — a
payload, `UpstreamTransient` when the retry budget is exhausted on transient
failures, or `UpstreamRejected` for a non-transient failure surfaced
immediately. -/
inductive ClientResult where
  | ok (v : Value)
  | upstreamTransient (msg : String)
  | upstreamRejected (msg : String)
deriving DecidableEq, Repr

/-- Modelled from the spec: the bounded retry loop.  `f n` is the result of
the `n`-th external attempt, `fuel` the remaining attempt budget, `i` the
index of the next attempt.  Returns how many attempts were performed together
with the normalized result.  A transient failure is retried while budget
remains; a non-transient failure returns immediately with no retry. -/
def runRetry (f : Nat → AttemptResult) : Nat → Nat → Nat × ClientResult
  | 0, _ => (0, .upstreamTransient "no attempt budget")
  | fuel + 1, i =>
    match f i with
    | .ok v => (1, .ok v)
    | .fail e =>
      if isTransient e then
        match fuel with
        | 0 => (1, .upstreamTransient (describeFailure e))
        | _ + 1 =>
          let r := runRetry f fuel (i + 1)
          (r.1 + 1, r.2)
      else (1, .upstreamRejected (describeFailure e))

/-- Modelled from the spec: one Ticketing Client operation under a retry
policy allowing at most `policy` attempts, starting from attempt `0`. -/
def clientCall (policy : Nat) (f : Nat → AttemptResult) : Nat × ClientResult :=
  runRetry f policy 0

/-- The retry loop never performs more attempts than its budget. -/
theorem runRetry_attempts_le (f : Nat → AttemptResult) :
    ∀ fuel i, (runRetry f fuel i).1 ≤ fuel := by
  intro fuel
  induction fuel with
  | zero => intro i; simp [runRetry]
  | succ n ih =>
    intro i
    unfold runRetry
    cases hf : f i with
    | ok v => simp
    | fail e =>
      by_cases ht : isTransient e
      · simp only [ht, if_true]
        cases n with
        | zero => simp
        | succ m =>
          have := ih (i + 1)
          simpa using Nat.succ_le_succ this
      · simp [ht]

/-- Every attempt that was followed by another attempt (i.e. every non-final
attempt) failed transiently: retries happen only after transient failures. -/
theorem runRetry_retried_only_transient (f : Nat → AttemptResult) :
    ∀ fuel i j, j + 1 < (runRetry f fuel i).1 →
      ∃ e, f (i + j) = AttemptResult.fail e ∧ isTransient e = true := by
  intro fuel
  induction fuel with
  | zero =>
    intro i j h
    simp [runRetry] at h
  | succ n ih =>
    intro i j h
    rw [runRetry] at h
    cases hf : f i with
    | ok v =>
      rw [hf] at h
      simp at h
    | fail e =>
      rw [hf] at h
      by_cases ht : isTransient e
      · cases n with
        | zero =>
          simp only [ht, if_true] at h
          omega
        | succ m =>
          simp only [ht, if_true] at h
          cases j with
          | zero => exact ⟨e, by simpa using hf, ht⟩
          | succ j0 =>
            have hj : j0 + 1 < (runRetry f (m + 1) (i + 1)).1 := by omega
            have hres := ih (i + 1) j0 hj
            have harith : i + (j0 + 1) = i + 1 + j0 := by omega
            rw [harith]
            exact hres
      · simp only [ht, Bool.false_eq_true, if_false] at h
        omega

/-- Claim C7: for every Ticketing Client operation under an attempt budget of
`N ≥ 1`: the number of attempts performed is bounded by `N`; a non-transient
first failure is surfaced immediately as `upstreamRejected` after exactly one
attempt (no retry); and every retried attempt (every attempt other than the
last) had failed transiently, so retries occur only for transient
failures. -/
theorem client_retry_policy (policyN : Nat) (f : Nat → AttemptResult)
    (hN : 1 ≤ policyN) :
    (clientCall policyN f).1 ≤ policyN ∧
    (∀ e, f 0 = AttemptResult.fail e → isTransient e = false →
      clientCall policyN f = (1, ClientResult.upstreamRejected (describeFailure e))) ∧
    (∀ j, j + 1 < (clientCall policyN f).1 →
      ∃ e, f j = AttemptResult.fail e ∧ isTransient e = true) := by
  refine ⟨runRetry_attempts_le f policyN 0, ?_, ?_⟩
  · intro e hf0 hnt
    obtain ⟨m, rfl⟩ : ∃ m, policyN = m + 1 := ⟨policyN - 1, by omega⟩
    unfold clientCall runRetry
    rw [hf0]
    simp [hnt]
  · intro j hj
    have := runRetry_retried_only_transient f policyN 0 j hj
    simpa using this

/-- A concrete attempt schedule: the first attempt times out (transient), the
second succeeds. -/
def attemptsW : Nat → AttemptResult :=
  fun i => if i = 0 then .fail .timeout else .ok (Value.int 1)

/-- Witness for C7 at budget 3 with the concrete schedule `attemptsW`. -/
theorem client_retry_policy_witness :
    (clientCall 3 attemptsW).1 ≤ 3 ∧
    (∀ e, attemptsW 0 = AttemptResult.fail e → isTransient e = false →
      clientCall 3 attemptsW = (1, ClientResult.upstreamRejected (describeFailure e))) ∧
    (∀ j, j + 1 < (clientCall 3 attemptsW).1 →
      ∃ e, attemptsW j = AttemptResult.fail e ∧ isTransient e = true) :=
  client_retry_policy 3 attemptsW (by decide)

/-! ### The Session/Lifecycle Manager, modelled from the specification -/

/-- Modelled from the spec: the observable state of the Session/Lifecycle
Manager — requests not yet started, correlation ids of in-flight dispatches,
ids of completed and of abandoned dispatches, the time at which the shutdown
signal arrived (if it has), and a logical clock. -/
structure LifecycleState where
  queue : List Request
  inflight : List String
  completed : List String
  abandoned : List String
  shutdownAt : Option Nat
  clock : Nat
deriving DecidableEq, Repr

/-- Modelled from the spec: the transitions of the Session/Lifecycle Manager
under a configured shutdown `timeout`.  New Requests are received and started
only while no shutdown signal has arrived; an in-flight dispatch may complete
at any time; a shutdown signal records the current clock; an in-flight
dispatch may be abandoned only after a shutdown signal and only once the
shutdown timeout has elapsed since the signal. -/
inductive LStep (timeout : Nat) : LifecycleState → LifecycleState → Prop where
  | tick (s : LifecycleState) :
      LStep timeout s { s with clock := s.clock + 1 }
  | receive (s : LifecycleState) (r : Request) (h : s.shutdownAt = none) :
      LStep timeout s { s with queue := s.queue ++ [r] }
  | start (s : LifecycleState) (r : Request) (rest : List Request)
      (hq : s.queue = r :: rest) (h : s.shutdownAt = none) :
      LStep timeout s { s with queue := rest, inflight := r.id :: s.inflight }
  | complete (s : LifecycleState) (i : String) (h : i ∈ s.inflight) :
      LStep timeout s
        { s with inflight := s.inflight.erase i, completed := i :: s.completed }
  | signal (s : LifecycleState) (h : s.shutdownAt = none) :
      LStep timeout s { s with shutdownAt := some s.clock }
  | abandon (s : LifecycleState) (i : String) (t0 : Nat) (h : i ∈ s.inflight)
      (hs : s.shutdownAt = some t0) (ht : t0 + timeout ≤ s.clock) :
      LStep timeout s
        { s with inflight := s.inflight.erase i, abandoned := i :: s.abandoned }

/-- One lifecycle step taken after the shutdown signal preserves the signal
time, advances the clock monotonically, starts no new dispatch, conserves
every in-flight dispatch (it stays in flight, completes, or is abandoned),
abandons only once the timeout has elapsed, and never forgets a completion or
an abandonment. -/
theorem lstep_shutdown_inv (timeout : Nat) (s s2 : LifecycleState) (t0 : Nat)
    (hstep : LStep timeout s s2) (hs : s.shutdownAt = some t0) :
    s2.shutdownAt = some t0 ∧ s.clock ≤ s2.clock ∧
    (∀ i, i ∈ s2.inflight → i ∈ s.inflight) ∧
    (∀ i, i ∈ s.inflight → i ∈ s2.inflight ∨ i ∈ s2.completed ∨ i ∈ s2.abandoned) ∧
    (∀ i, i ∈ s2.abandoned → i ∈ s.abandoned ∨ t0 + timeout ≤ s2.clock) ∧
    (∀ i, i ∈ s.completed → i ∈ s2.completed) ∧
    (∀ i, i ∈ s.abandoned → i ∈ s2.abandoned) := by
  cases hstep with
  | tick =>
    exact ⟨hs, Nat.le_succ _, fun i hi => hi, fun i hi => Or.inl hi,
      fun i hi => Or.inl hi, fun i hi => hi, fun i hi => hi⟩
  | receive r h =>
    rw [h] at hs
    exact Option.noConfusion hs
  | start r rest hq h =>
    rw [h] at hs
    exact Option.noConfusion hs
  | complete i0 h =>
    refine ⟨hs, le_refl _, fun i hi => List.mem_of_mem_erase hi, ?_,
      fun i hi => Or.inl hi, fun i hi => List.mem_cons_of_mem _ hi, fun i hi => hi⟩
    intro i hi
    by_cases heq : i = i0
    · exact Or.inr (Or.inl (heq ▸ List.mem_cons_self i0 _))
    · exact Or.inl ((List.mem_erase_of_ne heq).mpr hi)
  | signal h =>
    rw [h] at hs
    exact Option.noConfusion hs
  | abandon i0 t1 h hsd ht =>
    have ht0 : t1 = t0 := by
      rw [hsd] at hs
      exact Option.some.inj hs
    subst ht0
    refine ⟨hs, le_refl _, fun i hi => List.mem_of_mem_erase hi, ?_, ?_,
      fun i hi => hi, fun i hi => List.mem_cons_of_mem _ hi⟩
    · intro i hi
      by_cases heq : i = i0
      · exact Or.inr (Or.inr (heq ▸ List.mem_cons_self i0 _))
      · exact Or.inl ((List.mem_erase_of_ne heq).mpr hi)
    · intro i hi
      rcases List.mem_cons.mp hi with heq | hmem
      · exact Or.inr ht
      · exact Or.inl hmem

/-- Claim C8: once the shutdown signal has been received (at time `t0`), over
any sequence of lifecycle steps: the signal is never forgotten, the clock is
monotone, no Request is newly dispatched (the in-flight set only shrinks),
every Request in flight at the signal is still in flight, completed, or
abandoned, and any Request abandoned after the signal is abandoned only once
the configured shutdown timeout has elapsed since the signal. -/
theorem shutdown_no_new_dispatch (timeout : Nat) (s s2 : LifecycleState)
    (t0 : Nat)
    (hreach : Relation.ReflTransGen (LStep timeout) s s2)
    (hs : s.shutdownAt = some t0) :
    s2.shutdownAt = some t0 ∧ s.clock ≤ s2.clock ∧
    (∀ i, i ∈ s2.inflight → i ∈ s.inflight) ∧
    (∀ i, i ∈ s.inflight → i ∈ s2.inflight ∨ i ∈ s2.completed ∨ i ∈ s2.abandoned) ∧
    (∀ i, i ∈ s2.abandoned → i ∈ s.abandoned ∨ t0 + timeout ≤ s2.clock) := by
  induction hreach with
  | refl =>
    exact ⟨hs, le_refl _, fun i hi => hi, fun i hi => Or.inl hi,
      fun i hi => Or.inl hi⟩
  | tail hab hbc ih =>
    obtain ⟨ih1, ih2, ih3, ih4, ih5⟩ := ih
    obtain ⟨g1, g2, g3, g4, g5, g6, g7⟩ := lstep_shutdown_inv timeout _ _ t0 hbc ih1
    refine ⟨g1, le_trans ih2 g2, fun i hi => ih3 i (g3 i hi), ?_, ?_⟩
    · intro i hi
      rcases ih4 i hi with h1 | h2 | h3
      · exact g4 i h1
      · exact Or.inr (Or.inl (g6 i h2))
      · exact Or.inr (Or.inr (g7 i h3))
    · intro i hi
      rcases g5 i hi with h1 | h2
      · rcases ih5 i h1 with h3 | h4
        · exact Or.inl h3
        · exact Or.inr (le_trans h4 g2)
      · exact Or.inr h2

/-- The lifecycle state of the C8 witness at the shutdown signal: request
`"1"` is in flight, the signal arrived at time 0, the clock reads 0. -/
def lsStart : LifecycleState := ⟨[], ["1"], [], [], some 0, 0⟩

/-- The lifecycle state of the C8 witness after two clock ticks and the
abandonment of request `"1"` once the timeout (2) elapsed. -/
def lsEnd : LifecycleState := ⟨[], [], [], ["1"], some 0, 2⟩

/-- Witness for C8: a concrete three-step trace with timeout 2 — two ticks,
then abandonment of the in-flight request exactly when the timeout has
elapsed. -/
theorem shutdown_no_new_dispatch_witness :
    lsEnd.shutdownAt = some 0 ∧ lsStart.clock ≤ lsEnd.clock ∧
    (∀ i, i ∈ lsEnd.inflight → i ∈ lsStart.inflight) ∧
    (∀ i, i ∈ lsStart.inflight →
      i ∈ lsEnd.inflight ∨ i ∈ lsEnd.completed ∨ i ∈ lsEnd.abandoned) ∧
    (∀ i, i ∈ lsEnd.abandoned → i ∈ lsStart.abandoned ∨ 0 + 2 ≤ lsEnd.clock) :=
  shutdown_no_new_dispatch 2 lsStart lsEnd 0
    (Relation.ReflTransGen.tail
      (Relation.ReflTransGen.tail
        (Relation.ReflTransGen.tail Relation.ReflTransGen.refl
          (LStep.tick lsStart))
        (LStep.tick _))
      (LStep.abandon _ "1" 0 (by decide) rfl (by decide)))
    rfl

/-! ### Claims about the Dispatcher, Registry and entry point -/

/-- Claim C2 (amended): every dispatch produces exactly one Response, and for
every valid Request naming a registered tool, with schema-conformant
arguments, whose handler completes successfully, the Response is a success
Response whose correlation id equals the Request's id; in any batch
containing the Request, whatever order (permutation) the responses complete
in, the batch yields one Response per Request and contains this success
Response. -/
theorem dispatch_valid_success (reg : Registry) (req : Request)
    (d : ToolDescriptor) (v : Value) (reqs : List Request) (out : List Response)
    (h1 : lookup reg req.tool_name = some d)
    (h2 : validate d.inputSchema req.arguments = Except.ok req.arguments)
    (h3 : (d.handler req.arguments).2 = Except.ok v)
    (hmem : req ∈ reqs)
    (hperm : out.Perm (reqs.map fun r => (dispatch reg r).1)) :
    (dispatch reg req).1 = ⟨req.id, ResponseResult.success v⟩ ∧
    out.length = reqs.length ∧
    (⟨req.id, ResponseResult.success v⟩ : Response) ∈ out := by
  have hd : (dispatch reg req).1 = ⟨req.id, ResponseResult.success v⟩ := by
    simp only [dispatch, h1, h2, h3]
  refine ⟨hd, ?_, ?_⟩
  · rw [hperm.length_eq, List.length_map]
  · have hm : (⟨req.id, ResponseResult.success v⟩ : Response) ∈
        reqs.map fun r => (dispatch reg r).1 := by
      rw [← hd]
      exact List.mem_map_of_mem _ hmem
    exact hperm.mem_iff.mpr hm

/-- Witness for C2 at a concrete registry, a two-request batch and a
nontrivially reordered completion. -/
theorem dispatch_valid_success_witness :
    (dispatch wReg wReq).1 = ⟨wReq.id, ResponseResult.success (Value.str "ticket")⟩ ∧
    [(dispatch wReg wReq2).1, (dispatch wReg wReq).1].length = [wReq, wReq2].length ∧
    (⟨wReq.id, ResponseResult.success (Value.str "ticket")⟩ : Response) ∈
      [(dispatch wReg wReq2).1, (dispatch wReg wReq).1] :=
  dispatch_valid_success wReg wReq wDesc (Value.str "ticket") [wReq, wReq2]
    [(dispatch wReg wReq2).1, (dispatch wReg wReq).1]
    rfl rfl rfl (by simp [wReq]) (List.Perm.swap _ _ _)

/-- Counterexample to C2 as stated: `boomReq` is a valid Request (its tool is
registered and its arguments conform to the schema), yet `dispatch` returns a
`handlerFault` error Response, not a success Response, because the handler
raises. -/
theorem dispatch_valid_success_counterexample :
    lookup boomReg boomReq.tool_name = some boomDesc ∧
    validate boomDesc.inputSchema boomReq.arguments = Except.ok boomReq.arguments ∧
    (dispatch boomReg boomReq).1.result =
      ResponseResult.error ErrorKind.handlerFault "boom" :=
  ⟨rfl, rfl, rfl⟩

/-- Claim C3: for every Request whose tool name is not in the registry,
`dispatch` returns (it is a total function, so it never raises) an error
Response of kind `toolNotFound` whose correlation id equals the Request's id,
and performs no Ticketing Client call. -/
theorem dispatch_unknown_tool (reg : Registry) (req : Request)
    (h : lookup reg req.tool_name = none) :
    dispatch reg req =
      (⟨req.id, ResponseResult.error ErrorKind.toolNotFound "tool not found"⟩, []) := by
  simp only [dispatch, h]

/-- Witness for C3: the request of the spec's own example, `tool_name`
`"nope"`, against a registry that does not contain it. -/
theorem dispatch_unknown_tool_witness :
    dispatch wReg ⟨"2", "nope", []⟩ =
      (⟨"2", ResponseResult.error ErrorKind.toolNotFound "tool not found"⟩, []) :=
  dispatch_unknown_tool wReg ⟨"2", "nope", []⟩ rfl

/-- Claim C4: for every Request whose arguments fail schema validation for
the named registered tool, `dispatch` returns an error Response of kind
`invalidArguments` (echoing the request id and naming the failing field),
and the list of Ticketing Client calls performed is empty: the handler never
runs, so no external side effect occurs. -/
theorem dispatch_invalid_arguments (reg : Registry) (req : Request)
    (d : ToolDescriptor) (e : SchemaError)
    (h1 : lookup reg req.tool_name = some d)
    (h2 : validate d.inputSchema req.arguments = Except.error e) :
    dispatch reg req =
      (⟨req.id, ResponseResult.error ErrorKind.invalidArguments (schemaErrorMessage e)⟩,
        []) := by
  simp only [dispatch, h1, h2]

/-- Witness for C4: a request for `get_ticket` missing its required `id`
field. -/
theorem dispatch_invalid_arguments_witness :
    dispatch wReg ⟨"3", "get_ticket", []⟩ =
      (⟨"3", ResponseResult.error ErrorKind.invalidArguments
          (schemaErrorMessage (SchemaError.missingField "id"))⟩, []) :=
  dispatch_invalid_arguments wReg ⟨"3", "get_ticket", []⟩ wDesc
    (SchemaError.missingField "id") rfl rfl

/-- Claim C5: every failure raised by a tool handler (which includes failures
the Ticketing Client raises through it) is caught at the dispatch boundary
and converted into an error Response of kind `handlerFault` carrying the
failure's message and the request id; `dispatch` is a total function, so no
handler fault escapes (terminates the process) or is dropped without a
Response. -/
theorem dispatch_handler_fault (reg : Registry) (req : Request)
    (d : ToolDescriptor) (msg : String)
    (h1 : lookup reg req.tool_name = some d)
    (h2 : validate d.inputSchema req.arguments = Except.ok req.arguments)
    (h3 : (d.handler req.arguments).2 = Except.error msg) :
    (dispatch reg req).1 =
      ⟨req.id, ResponseResult.error ErrorKind.handlerFault msg⟩ := by
  simp only [dispatch, h1, h2, h3]

/-- Witness for C5: the always-raising tool produces a `handlerFault`
Response carrying its message. -/
theorem dispatch_handler_fault_witness :
    (dispatch boomReg boomReq).1 =
      ⟨boomReq.id, ResponseResult.error ErrorKind.handlerFault "boom"⟩ :=
  dispatch_handler_fault boomReg boomReq boomDesc "boom" rfl rfl rfl

/-- Claim C6: registering a descriptor whose name is already present fails
with `duplicateName`, and the registry is read-only for every subsequent
operation: `lookup`, `validate` and `dispatch` (in their state-passing forms)
return the registry unchanged. -/
theorem registry_immutable (reg : Registry) (d : ToolDescriptor) (n : String)
    (schema : List FieldSpec) (args : Args) (req : Request)
    (h : (lookup reg d.name).isSome = true) :
    registerTool reg d = Except.error RegError.duplicateName ∧
    (lookupS reg n).2 = reg ∧
    (validateS reg schema args).2 = reg ∧
    (dispatchS reg req).2 = reg := by
  refine ⟨?_, rfl, rfl, rfl⟩
  rcases hx : lookup reg d.name with _ | d0
  · rw [hx] at h
    simp at h
  · simp only [registerTool, hx]

/-- Witness for C6: re-registering the already-registered `boom` tool fails,
and the concrete registry is unchanged by the read operations. -/
theorem registry_immutable_witness :
    registerTool boomReg boomDesc = Except.error RegError.duplicateName ∧
    (lookupS boomReg "x").2 = boomReg ∧
    (validateS boomReg [] []).2 = boomReg ∧
    (dispatchS boomReg boomReq).2 = boomReg :=
  registry_immutable boomReg boomDesc "x" [] [] boomReq rfl

/-- Claim C1: every invocation of `main()` calls `asyncio.run` exactly once,
with `server.main()` as the coroutine, and performs no other work: its effect
trace is exactly the singleton `[asyncio.run(server.main())]`, whatever the
coroutine's outcome. -/
theorem main_runs_server_once (outcome : Except PyExc PyValue) :
    (mainExec outcome).1 = [Effect.asyncioRun Coroutine.serverMain] ∧
    (mainExec outcome).1.length = 1 := by
  exact ⟨rfl, rfl⟩

/-- Claim C9: whenever `server.main()` completes normally (with any value
`v`), `main()` returns `None`: the coroutine's result, returned by
`asyncio.run`, is discarded and never propagated to `main`'s caller. -/
theorem main_returns_none (v : PyValue) :
    mainExec (Except.ok v) =
      ([Effect.asyncioRun Coroutine.serverMain], Except.ok PyValue.none) := by
  rfl

/-- Claim C10: `main()` installs no exception handling of its own: every
exception `e` raised out of the `server.main()` coroutine propagates out of
`main()` unchanged, rather than being caught or converted at the entry
point. -/
theorem main_propagates_exceptions (e : PyExc) :
    mainExec (Except.error e) =
      ([Effect.asyncioRun Coroutine.serverMain], Except.error e) := by
  rfl

end ZendeskMcp
